import Mathlib

/-!
Shallow embedding of the core of the `x0` repository (package `exo`): the
tool wrapper (`exo/tools/base.py`), the chat context
(`exo/providers/context/chat_history.py`), the provider chat contract
(`exo/providers/base.py`), the model router (`exo/providers/model_router.py`),
the in-memory vector store (`exo/providers/vector_db/in_memory.py`) and the
tool-orchestration loop (`exo/agents/agents/search.py`).

Modelling conventions:
* Python floats are embedded as rationals (`ℚ`); all float comparisons the
  code performs are reproduced exactly (see `simLeB` for the encoding of
  cosine-similarity comparisons, which involve square roots).
* Python exceptions are embedded with `Except PyErr`; code that cannot raise
  returns plain values.
* Python strings are Lean `String`s; `str.split`, `str.strip` and the `in`
  operator are re-implemented structurally (`pySplit`, `pyStrip`,
  `pyContains`) so that they compute by kernel reduction.
* External effects (the network call of `provider.generate`, `eval` of
  model-produced text, the tool callables, `uuid.uuid4`, timestamps) are
  modelled as explicit function parameters or deterministic supplies.
-/

/-- Python exceptions that the embedded code can raise. -/
inductive PyErr where
  | nameError (msg : String)
  | valueError (msg : String)
  | indexError (msg : String)
  | typeError (msg : String)
  deriving DecidableEq

/-! ## Python string primitives -/

/-- Fuel-driven worker for `pySplit`.  Scans `rest`, splitting on each
occurrence of the (non-empty) separator; `acc` holds the current chunk in
reverse.  With fuel `rest.length + 1` the fuel never runs out. -/
def pySplitAux (sep : List Char) : Nat → List Char → List Char → List (List Char)
  | 0, acc, rest => [acc.reverse ++ rest]
  | fuel+1, acc, rest =>
    if sep ≠ [] ∧ sep.isPrefixOf rest then
      acc.reverse :: pySplitAux sep fuel [] (rest.drop sep.length)
    else
      match rest with
      | [] => [acc.reverse]
      | c :: rest2 => pySplitAux sep fuel (c :: acc) rest2

/-- Python `s.split(sep)` for a non-empty separator: split on every
occurrence, keeping empty chunks. -/
def pySplit (s sep : String) : List String :=
  (pySplitAux sep.toList (s.toList.length + 1) [] s.toList).map (fun cs => String.mk cs)

/-- Python `s.split(sep, 1)`: at most one split, the remainder keeps any
further separators. -/
def pySplit1 (s sep : String) : List String :=
  match pySplit s sep with
  | [] => [s]
  | [x] => [x]
  | x :: rest => [x, String.intercalate sep rest]

/-- Python `sub in s` for a non-empty `sub`: yields at least two chunks. -/
def pyContains (s sub : String) : Bool :=
  2 ≤ (pySplit s sub).length

/-- Python `s.strip()`: remove leading and trailing whitespace. -/
def pyStrip (s : String) : String :=
  String.mk (((s.toList.dropWhile Char.isWhitespace).reverse.dropWhile Char.isWhitespace).reverse)

/-! ## ChatHistory (`exo/providers/context/chat_history.py`) -/

/-- One entry of `ChatHistory.messages`: the dict
`{"role": .., "content": .., "timestamp": ..}` built by `add_message`.
`datetime.now().isoformat()` is modelled by the caller supplying the
timestamp string. -/
structure Message where
  role : String
  content : String
  timestamp : String
  deriving DecidableEq

/-- `ChatHistory`: ordered message list plus an optional system prompt. -/
structure ChatHistory where
  messages : List Message
  system_prompt : Option String
  deriving DecidableEq

/-- `ChatHistory()` constructor. -/
def ChatHistory.init : ChatHistory := ⟨[], none⟩

/-- `add_message(role, content)`: append one message (timestamp supplied by
the modelled clock). -/
def ChatHistory.add_message (h : ChatHistory) (role content ts : String) : ChatHistory :=
  { h with messages := h.messages ++ [⟨role, content, ts⟩] }

/-- `get_history()`: the source returns `self.messages.copy()`; in the
functional embedding the defensive copy is the value itself. -/
def ChatHistory.get_history (h : ChatHistory) : List Message :=
  h.messages

/-- `clear_history()`: reset the message list. -/
def ChatHistory.clear_history (h : ChatHistory) : ChatHistory :=
  { h with messages := [] }

/-! ## BaseProvider.chat (`exo/providers/base.py`)

`chat` appends the user message, obtains the completion from the concrete
backend (`_generate_chat_response`, an outbound network call, modelled as a
pure function of the message and of the history it can read through
`self._chat_history`), appends the assistant message, and returns the
completion. -/

/-- `BaseProvider.chat`.  `backend` models `_generate_chat_response`;
`t1`/`t2` are the two timestamps drawn inside the two `add_message` calls.
Returns the completion text and the updated history. -/
def BaseProvider.chat (backend : String → List Message → String)
    (h : ChatHistory) (message t1 t2 : String) : String × ChatHistory :=
  let h1 := h.add_message "user" message t1
  let response := backend message h1.get_history
  let h2 := h1.add_message "assistant" response t2
  (response, h2)

/-- `BaseProvider.clear_chat_history`. -/
def BaseProvider.clear_chat_history (h : ChatHistory) : ChatHistory :=
  h.clear_history

/-! ## The class-level shared history (`BaseProvider._shared_history`)

`_shared_history = ChatHistory()` is evaluated once, when the class body of
`BaseProvider` is executed; `__init__` then runs
`self._chat_history = self._shared_history`, so every instance stores a
reference to the same heap object.  References are modelled explicitly: a
heap of `ChatHistory` cells, the index held by the class attribute, and the
index held by each constructed instance. -/

structure ProviderClassState where
  heap : List ChatHistory
  sharedRef : Nat
  providerRefs : List Nat
  deriving DecidableEq

/-- State after the `BaseProvider` class body ran: one `ChatHistory()` on
the heap, referenced by the class attribute, no instances yet. -/
def ProviderClassState.classBody : ProviderClassState :=
  ⟨[ChatHistory.init], 0, []⟩

/-- `BaseProvider.__init__` of one more instance:
`self._chat_history = self._shared_history`. -/
def ProviderClassState.construct (s : ProviderClassState) : ProviderClassState :=
  { s with providerRefs := s.providerRefs ++ [s.sharedRef] }

/-- The state after the class body followed by `n` instance constructions. -/
def ProviderClassState.mkProviders : Nat → ProviderClassState
  | 0 => ProviderClassState.classBody
  | n+1 => (ProviderClassState.mkProviders n).construct

/-- Dereference a heap cell. -/
def ProviderClassState.heapGet (s : ProviderClassState) (r : Nat) : ChatHistory :=
  s.heap.getD r ChatHistory.init

/-- Overwrite a heap cell. -/
def ProviderClassState.heapSet (s : ProviderClassState) (r : Nat) (h : ChatHistory) :
    ProviderClassState :=
  { s with heap := s.heap.set r h }

/-- The `_chat_history` reference of instance `p`. -/
def ProviderClassState.refOf (s : ProviderClassState) (p : Nat) : Nat :=
  s.providerRefs.getD p 0

/-- `p.chat(message)` — `BaseProvider.chat` acting through instance `p`'s
`_chat_history` reference. -/
def ProviderClassState.chat (s : ProviderClassState)
    (backend : String → List Message → String) (p : Nat) (message t1 t2 : String) :
    String × ProviderClassState :=
  let r := s.refOf p
  let out := BaseProvider.chat backend (s.heapGet r) message t1 t2
  (out.1, s.heapSet r out.2)

/-- `q.get_chat_history()`. -/
def ProviderClassState.get_chat_history (s : ProviderClassState) (q : Nat) : List Message :=
  (s.heapGet (s.refOf q)).get_history

/-- `p.clear_chat_history()`. -/
def ProviderClassState.clear_chat_history (s : ProviderClassState) (p : Nat) :
    ProviderClassState :=
  s.heapSet (s.refOf p) ((s.heapGet (s.refOf p)).clear_history)

/-- All instance references alias the class attribute, which points at the
single heap cell 0. -/
def ProviderClassState.SharedWorld (s : ProviderClassState) : Prop :=
  s.sharedRef = 0 ∧ s.heap ≠ [] ∧ ∀ r ∈ s.providerRefs, r = 0

/-! ## Tool (`exo/tools/base.py`)

A Python callable is modelled by its `__name__`, its `__doc__` and its call
behaviour (arguments of type `V`, result of type `V`, may raise). -/

structure PyFunction (V : Type) where
  fname : String
  docstring : Option String
  impl : V → Except PyErr V

/-- The attribute record a fully constructed `Tool` would carry. -/
structure Tool (V : Type) where
  name : String
  description : String
  function : PyFunction V
  parameters : Option (List (String × String))

/-- The attribute values `Tool.__init__` binds before its last line:
`self.name = name or function.__name__`,
`self.description = description or function.__doc__ or f"Tool {self.name}"`.
Python truthiness of strings is non-emptiness; a `None` docstring is falsy. -/
def Tool.bindAttributes {V : Type} (name description : String) (function : PyFunction V)
    (parameters : Option (List (String × String))) : Tool V :=
  let boundName := if name ≠ "" then name else function.fname
  let boundDescription :=
    if description ≠ "" then description
    else match function.docstring with
      | some d => if d ≠ "" then d else "Tool " ++ boundName
      | none => "Tool " ++ boundName
  ⟨boundName, boundDescription, function, parameters⟩

/-- `Tool.__init__` as written: after binding the four attributes it executes
`wraps(function)(this)`.  The name `this` is not defined anywhere in the
module (nor is it a Python builtin), so evaluating it raises
`NameError: name this is not defined` and the constructor never returns. -/
def Tool.init {V : Type} (name description : String) (function : PyFunction V)
    (parameters : Option (List (String × String))) : Except PyErr (Tool V) :=
  let _bound := Tool.bindAttributes name description function parameters
  Except.error (PyErr.nameError "name this is not defined")

/-- `Tool.__call__`: forward the arguments to the wrapped callable and
return its result unchanged. -/
def Tool.call {V : Type} (t : Tool V) (args : V) : Except PyErr V :=
  t.function.impl args

/-! ## ModelRouterProvider (`exo/providers/model_router.py`)

Only the resolution and delegation logic (`_get_provider_and_model`,
`_generate_chat_response`) is embedded.  A resolved provider is modelled by
its mutable `model` attribute (all three concrete providers the router
instantiates set `self.model`, so the `hasattr(provider, "model")` guard
passes); the `temperature`/`max_tokens` mirroring guarded by the other two
`hasattr` checks does not affect resolution or delegation and is elided.
`config` maps a backend name to its `"models"` list; `providers` holds the
instantiated providers, one per configured backend name that
`_initialize_providers` recognises. -/

structure ProviderState where
  model : String
  deriving DecidableEq

structure Router where
  config : List (String × List String)
  providers : List (String × ProviderState)
  default_model : String

/-- Association-list lookup (Python dict access). -/
def alistGet {β : Type} (l : List (String × β)) (k : String) : Option β :=
  (l.find? (fun e => e.1 = k)).map (fun e => e.2)

/-- `_get_provider_and_model`: split the identifier on the first `/`
(`model.split("/", 1)`; with no `/` the two-name unpacking raises
`ValueError`), fail for an unconfigured backend or an unlisted model,
otherwise return the backend name, its provider and the model segment. -/
def Router.get_provider_and_model (r : Router) (model : String) :
    Except PyErr (String × ProviderState × String) :=
  match pySplit1 model "/" with
  | [provider_name, model_name] =>
    match alistGet r.providers provider_name with
    | none => Except.error (PyErr.valueError ("Provider " ++ provider_name ++ " not configured"))
    | some prov =>
      match alistGet r.config provider_name with
      | none => Except.error (PyErr.valueError "KeyError")
      | some models =>
        if model_name ∈ models then Except.ok (provider_name, prov, model_name)
        else Except.error
          (PyErr.valueError ("Model " ++ model_name ++ " not available for provider "
            ++ provider_name))
  | _ => Except.error (PyErr.valueError "not enough values to unpack")

/-- Overwrite the stored provider of one backend. -/
def Router.setProvider (r : Router) (name : String) (p : ProviderState) : Router :=
  { r with providers := r.providers.map (fun e => if e.1 = name then (e.1, p) else e) }

/-- `_generate_chat_response`: pick the model identifier (the `model` kwarg
or the default), resolve it, set the resolved provider's `model` attribute
to the requested model, and delegate the call to that provider's `chat`.
The delegated backend call is modelled by `chatImpl`, a function of the
provider state (which includes the freshly set model) and the message. -/
def Router.generate_chat_response (r : Router)
    (chatImpl : ProviderState → String → String) (message : String)
    (modelArg : Option String) : Except PyErr (String × Router) :=
  let model := modelArg.getD r.default_model
  match r.get_provider_and_model model with
  | Except.error e => Except.error e
  | Except.ok (provider_name, prov, model_name) =>
    let prov2 := { prov with model := model_name }
    Except.ok (chatImpl prov2 message, r.setProvider provider_name prov2)

/-! ## InMemoryVectorDB (`exo/providers/vector_db/in_memory.py`)

Vectors are lists of rationals.  `uuid.uuid4()` draws from an external
entropy source; it is modelled by a deterministic fresh-id supply
(`nextId`), the only property the code relies on being that each inserted
record receives an id string.  Metadata dictionaries are an abstract
inhabited type `α` whose `default` plays the role of the empty dict. -/

structure InMemoryVectorDB (α : Type) where
  vectors : List (List ℚ)
  metadatas : List α
  ids : List String
  nextId : Nat

/-- `InMemoryVectorDB()` constructor: three empty lists. -/
def InMemoryVectorDB.init {α : Type} : InMemoryVectorDB α :=
  ⟨[], [], [], 0⟩

/-- `add(embeddings, metadatas)`: default missing metadata to empty dicts,
raise `ValueError` on a length mismatch BEFORE any mutation, otherwise
append each pair (with a fresh id) in order. -/
def InMemoryVectorDB.add {α : Type} [Inhabited α] (db : InMemoryVectorDB α)
    (embeddings : List (List ℚ)) (metadatas : Option (List α)) :
    Except PyErr (InMemoryVectorDB α) :=
  let metas := match metadatas with
    | none => embeddings.map (fun _ => (default : α))
    | some ms => ms
  if embeddings.length ≠ metas.length then
    Except.error (PyErr.valueError "Number of embeddings must match number of metadatas")
  else
    Except.ok ((embeddings.zip metas).foldl
      (fun acc em =>
        { vectors := acc.vectors ++ [em.1]
          metadatas := acc.metadatas ++ [em.2]
          ids := acc.ids ++ [toString acc.nextId]
          nextId := acc.nextId + 1 })
      db)

/-- `np.dot` of two equal-length vectors. -/
def dotProd (u v : List ℚ) : ℚ :=
  ((u.zip v).map (fun p => p.1 * p.2)).sum

/-- The exact data of one cosine-similarity value
`dot / (norm1 * norm2) if norm1 * norm2 > 0 else 0`:
the dot product `d` and the product `P` of the two SQUARED norms, so that
the float value is `d / sqrt P` when `P > 0` and `0` otherwise
(`norm1 * norm2 > 0` iff `norm1^2 * norm2^2 > 0`). -/
def simKey (q v : List ℚ) : ℚ × ℚ :=
  (dotProd q v, dotProd q q * dotProd v v)

/-- The sign of the similarity value encoded by `a = (d, P)`:
`0` when `P = 0` (the guard makes the similarity 0) or `d = 0`,
else the sign of `d`. -/
def simSign (a : ℚ × ℚ) : Int :=
  if a.2 ≤ 0 then 0 else if 0 < a.1 then 1 else if a.1 < 0 then -1 else 0

/-- Exact comparison of two similarity values: `simLeB a b` decides
`d_a / sqrt P_a ≤ d_b / sqrt P_b` (with the zero-guard) without leaving ℚ:
compare signs first, then — for equal non-zero signs — compare the squares
cross-multiplied.  `simLeB_iff_similarity_le` below proves this encoding
correct against the real-valued similarity. -/
def simLeB (a b : ℚ × ℚ) : Bool :=
  if simSign a < simSign b then true
  else if simSign b < simSign a then false
  else if simSign a = 1 then decide (a.1 ^ 2 * b.2 ≤ b.1 ^ 2 * a.2)
  else if simSign a = -1 then decide (b.1 ^ 2 * a.2 ≤ a.1 ^ 2 * b.2)
  else true

/-- Strict version of `simLeB`. -/
def simLtB (a b : ℚ × ℚ) : Bool :=
  simLeB a b && !simLeB b a

/-- Equality of similarity values. -/
def simEqB (a b : ℚ × ℚ) : Bool :=
  simLeB a b && simLeB b a

/-- The comparison `np.argsort` applies to positions `i j` of the
similarity list: ascending by similarity; a stable ascending argsort keeps
equal keys in index order, which is exactly the lexicographic order
(similarity, index). -/
def idxLeB (sims : List (ℚ × ℚ)) (i j : Nat) : Bool :=
  simLtB (sims.getD i (0, 0)) (sims.getD j (0, 0)) ||
    (simEqB (sims.getD i (0, 0)) (sims.getD j (0, 0)) && decide (i ≤ j))

/-- The similarity list `[cosine(query, vec) for vec in self.vectors]`,
each value kept in exact form. -/
def InMemoryVectorDB.querySims {α : Type} (db : InMemoryVectorDB α) (embedding : List ℚ) :
    List (ℚ × ℚ) :=
  db.vectors.map (fun v => simKey embedding v)

/-- `np.argsort(similarities)`: the indices `0..n-1` sorted ascending by
similarity, stably (modelled as sorting by the (similarity, index)
lexicographic order). -/
def argsortSims (sims : List (ℚ × ℚ)) : List Nat :=
  List.insertionSort (fun i j => idxLeB sims i j = true) (List.range sims.length)

/-- The index list `np.argsort(similarities)[-top_k:][::-1]`.  Python slice
semantics: `[-0:]` is the WHOLE list (minus zero is zero), and for
`top_k > 0` the slice keeps the last `min top_k n` entries. -/
def InMemoryVectorDB.queryIndices {α : Type} (db : InMemoryVectorDB α)
    (embedding : List ℚ) (top_k : Nat) : List Nat :=
  let sims := db.querySims embedding
  let sorted := argsortSims sims
  let sliced := if top_k = 0 then sorted
    else sorted.drop (sorted.length - min top_k sorted.length)
  sliced.reverse

/-- `query(embedding, top_k)`: empty result on an empty store; `np.dot`
raises `ValueError` when the query vector and a stored vector have
different lengths; otherwise the metadata of the top indices. -/
def InMemoryVectorDB.query {α : Type} [Inhabited α] (db : InMemoryVectorDB α)
    (embedding : List ℚ) (top_k : Nat) : Except PyErr (List α) :=
  if db.vectors.isEmpty then Except.ok []
  else if db.vectors.any (fun v => v.length ≠ embedding.length) then
    Except.error (PyErr.valueError "shapes not aligned")
  else
    Except.ok ((db.queryIndices embedding top_k).map (fun i => db.metadatas.getD i default))

/-- `delete(ids)`: keep exactly the records whose id is not listed. -/
def InMemoryVectorDB.delete {α : Type} [Inhabited α] (db : InMemoryVectorDB α)
    (ids : List String) : InMemoryVectorDB α :=
  let keep := (List.range db.ids.length).filter (fun i => (db.ids.getD i "") ∉ ids)
  { vectors := keep.map (fun i => db.vectors.getD i [])
    metadatas := keep.map (fun i => db.metadatas.getD i default)
    ids := keep.map (fun i => db.ids.getD i "")
    nextId := db.nextId }

/-- `clear()`: reset the three lists. -/
def InMemoryVectorDB.clear {α : Type} (db : InMemoryVectorDB α) : InMemoryVectorDB α :=
  { db with vectors := [], metadatas := [], ids := [] }

/-- The three parallel lists stay in lockstep. -/
def InMemoryVectorDB.WF {α : Type} (db : InMemoryVectorDB α) : Prop :=
  db.vectors.length = db.metadatas.length ∧ db.metadatas.length = db.ids.length

/-- All stored vectors share one dimensionality. -/
def InMemoryVectorDB.uniformDim {α : Type} (db : InMemoryVectorDB α) : Prop :=
  ∀ u ∈ db.vectors, ∀ v ∈ db.vectors, u.length = v.length

/-! ## webscraper_agent (`exo/agents/agents/search.py`)

The loop is embedded over:
* `gen i prompt` — the provider's response to the `i`-th `generate` call
  (an outbound model call, free to return anything);
* `evalLiteral` — Python `eval` of the text after `PARAMETERS:` (it may
  raise; its value, of abstract type `V`, is what `**tool_params` unpacks);
* `searchF` / `scraperF` — the two tool callables (they may raise);
* `reprV` — Python `str`/`repr` of a `V` value, used only to fold results
  back into the next prompt.
The `search`/`scraper` `Tool` objects the module builds at import time are
irrelevant to the loop body (it calls the callables through fixed names),
so the system prompt rendered from them is a parameter `sysPrompt`. -/

/-- The `result` field of one step record: either the value the tool
returned, or the literal dict `{"error": "Unknown tool"}` recorded for an
unrecognised tool name. -/
inductive StepResult (V : Type) where
  | value (v : V)
  | errorDict (msg : String)

/-- One entry of `conversation_history`. -/
structure AgentStep (V : Type) where
  step : Nat
  tool : String
  parameters : V
  result : StepResult V

/-- The structured result `webscraper_agent` returns. -/
structure AgentResult (V : Type) where
  query : String
  steps : List (AgentStep V)
  final_answer : String

/-- Python `str` of a step result (the error dict renders as
`{"error": "Unknown tool"}`-style text). -/
def reprStepResult {V : Type} (reprV : V → String) : StepResult V → String
  | StepResult.value v => reprV v
  | StepResult.errorDict msg => "\x7b\"error\": \"" ++ msg ++ "\"\x7d"

/-- Python `str` of one step record (a dict). -/
def reprStep {V : Type} (reprV : V → String) (s : AgentStep V) : String :=
  "\x7b\"step\": " ++ toString s.step ++ ", \"tool\": \"" ++ s.tool ++
    "\", \"parameters\": " ++ reprV s.parameters ++ ", \"result\": " ++
    reprStepResult reprV s.result ++ "\x7d"

/-- Python `str(conversation_history)`. -/
def reprHistory {V : Type} (reprV : V → String) (hist : List (AgentStep V)) : String :=
  "[" ++ String.intercalate ", " (hist.map (reprStep reprV)) ++ "]"

/-- The prompt passed to `provider.generate`. -/
def mkPrompt {V : Type} (reprV : V → String) (sysPrompt currentPrompt : String)
    (hist : List (AgentStep V)) : String :=
  sysPrompt ++ "\n\nCurrent task: " ++ currentPrompt ++ "\n\nConversation history: " ++
    reprHistory reprV hist

/-- Lines 75–77: `tool_parts = response.split("USE_TOOL:")[1].split("PARAMETERS:")`,
`tool_name = tool_parts[0].strip()`, `tool_params = eval(tool_parts[1].strip())`.
`tool_parts[1]` raises `IndexError` when no `PARAMETERS:` follows the
marker, and `eval` raises whatever the malformed literal raises. -/
def parseToolCall {V : Type} (evalLiteral : String → Except PyErr V) (response : String) :
    Except PyErr (String × V) :=
  match pySplit response "USE_TOOL:" with
  | _ :: afterMarker :: _ =>
    match pySplit afterMarker "PARAMETERS:" with
    | namePart :: paramPart :: _ =>
      let tool_name := pyStrip namePart
      match evalLiteral (pyStrip paramPart) with
      | Except.error e => Except.error e
      | Except.ok v => Except.ok (tool_name, v)
    | [_namePart] => Except.error (PyErr.indexError "list index out of range")
    | [] => Except.error (PyErr.indexError "list index out of range")
  | _ => Except.error (PyErr.indexError "list index out of range")

/-- Lines 80–85: dispatch on the parsed tool name; an unknown name is NOT
an error — it records the `{"error": "Unknown tool"}` dict. -/
def dispatchTool {V : Type} (searchF scraperF : V → Except PyErr V)
    (tool_name : String) (params : V) : Except PyErr (StepResult V) :=
  if tool_name = "google_search" then (searchF params).map StepResult.value
  else if tool_name = "scrape_website" then (scraperF params).map StepResult.value
  else Except.ok (StepResult.errorDict "Unknown tool")

/-- The `while step < max_steps` loop, by recursion on the remaining budget
`max_steps - step`.  Exhausted budget returns the sentinel result; a
response without the `USE_TOOL:` marker returns immediately; a tool step
appends one record and continues with the folded-back prompt.  Parse
errors and tool exceptions propagate (there is no `try` in the loop). -/
def agentLoop {V : Type} (gen : Nat → String → String)
    (evalLiteral : String → Except PyErr V) (searchF scraperF : V → Except PyErr V)
    (reprV : V → String) (sysPrompt query : String) :
    Nat → Nat → String → List (AgentStep V) → Except PyErr (AgentResult V)
  | 0, _, _, hist => Except.ok ⟨query, hist, "Max steps reached without conclusion"⟩
  | remaining+1, step, currentPrompt, hist =>
    let response := gen step (mkPrompt reprV sysPrompt currentPrompt hist)
    if pyContains response "USE_TOOL:" then
      match parseToolCall evalLiteral response with
      | Except.error e => Except.error e
      | Except.ok (tool_name, tool_params) =>
        match dispatchTool searchF scraperF tool_name tool_params with
        | Except.error e => Except.error e
        | Except.ok result =>
          let hist2 := hist ++ [⟨step, tool_name, tool_params, result⟩]
          let next := "Tool " ++ tool_name ++ " returned: " ++
            reprStepResult reprV result ++ "\nWhat should we do next?"
          agentLoop gen evalLiteral searchF scraperF reprV sysPrompt query
            remaining (step + 1) next hist2
    else Except.ok ⟨query, hist, response⟩

/-- `webscraper_agent(query, provider)`: `max_steps = 5`, `step = 0`,
empty history, first prompt is the original query. -/
def webscraper_agent {V : Type} (gen : Nat → String → String)
    (evalLiteral : String → Except PyErr V) (searchF scraperF : V → Except PyErr V)
    (reprV : V → String) (sysPrompt query : String) : Except PyErr (AgentResult V) :=
  agentLoop gen evalLiteral searchF scraperF reprV sysPrompt query 5 0 query []

/-- The real-valued cosine similarity the source computes per stored
vector: `dot_product / (norm1 * norm2) if norm1 * norm2 > 0 else 0`. -/
noncomputable def cosineSimilarity (q v : List ℚ) : ℝ :=
  let n1 := Real.sqrt ((dotProd q q : ℚ) : ℝ)
  let n2 := Real.sqrt ((dotProd v v : ℚ) : ℝ)
  if 0 < n1 * n2 then ((dotProd q v : ℚ) : ℝ) / (n1 * n2) else 0

/-- The real value encoded by an exact similarity pair `(d, P)`:
`d / sqrt P` when `P > 0`, else `0`. -/
noncomputable def simValR (a : ℚ × ℚ) : ℝ :=
  if 0 < a.2 then ((a.1 : ℚ) : ℝ) / Real.sqrt ((a.2 : ℚ) : ℝ) else 0

/-! ## Theorems.  First: the exact-comparison theory for `simLeB`. -/

theorem simSign_mem (a : ℚ × ℚ) : simSign a = -1 ∨ simSign a = 0 ∨ simSign a = 1 := by
  unfold simSign; split_ifs <;> simp

theorem simSign_eq_one (a : ℚ × ℚ) (h : simSign a = 1) : 0 < a.2 ∧ 0 < a.1 := by
  unfold simSign at h
  split_ifs at h with h1 h2 h3 <;>
    first
    | exact ⟨lt_of_not_le h1, h2⟩
    | omega

theorem simSign_eq_neg_one (a : ℚ × ℚ) (h : simSign a = -1) : 0 < a.2 ∧ a.1 < 0 := by
  unfold simSign at h
  split_ifs at h with h1 h2 h3 <;>
    first
    | exact ⟨lt_of_not_le h1, h3⟩
    | omega

theorem simSign_eq_zero (a : ℚ × ℚ) (h : simSign a = 0) : a.2 ≤ 0 ∨ a.1 = 0 := by
  unfold simSign at h
  split_ifs at h with h1 h2 h3 <;>
    first
    | exact Or.inl h1
    | exact Or.inr (le_antisymm (not_lt.mp h2) (not_lt.mp h3))
    | omega

theorem simLeB_pos_iff (a b : ℚ × ℚ) (ha : simSign a = 1) (hb : simSign b = 1) :
    simLeB a b = true ↔ a.1 ^ 2 * b.2 ≤ b.1 ^ 2 * a.2 := by
  unfold simLeB; rw [ha, hb]; norm_num

theorem simLeB_neg_iff (a b : ℚ × ℚ) (ha : simSign a = -1) (hb : simSign b = -1) :
    simLeB a b = true ↔ b.1 ^ 2 * a.2 ≤ a.1 ^ 2 * b.2 := by
  unfold simLeB; rw [ha, hb]; norm_num

theorem simLeB_zero_zero (a b : ℚ × ℚ) (ha : simSign a = 0) (hb : simSign b = 0) :
    simLeB a b = true := by
  unfold simLeB; rw [ha, hb]; norm_num

theorem simLeB_of_sign_lt (a b : ℚ × ℚ) (h : simSign a < simSign b) : simLeB a b = true := by
  unfold simLeB; rw [if_pos h]

theorem not_simLeB_of_sign_lt (a b : ℚ × ℚ) (h : simSign b < simSign a) : simLeB a b = false := by
  unfold simLeB; rw [if_neg (by omega), if_pos h]

theorem sign_le_of_simLeB (a b : ℚ × ℚ) (h : simLeB a b = true) : simSign a ≤ simSign b := by
  by_contra hc
  rw [not_simLeB_of_sign_lt a b (by omega)] at h
  exact absurd h (by decide)

theorem simLeB_total (a b : ℚ × ℚ) : simLeB a b = true ∨ simLeB b a = true := by
  rcases lt_trichotomy (simSign a) (simSign b) with h | h | h
  · exact Or.inl (simLeB_of_sign_lt a b h)
  · rcases simSign_mem a with ha | ha | ha
    · rcases le_total (b.1 ^ 2 * a.2) (a.1 ^ 2 * b.2) with hle | hle
      · exact Or.inl ((simLeB_neg_iff a b ha (h ▸ ha)).mpr hle)
      · exact Or.inr ((simLeB_neg_iff b a (h ▸ ha) ha).mpr hle)
    · exact Or.inl (simLeB_zero_zero a b ha (h ▸ ha))
    · rcases le_total (a.1 ^ 2 * b.2) (b.1 ^ 2 * a.2) with hle | hle
      · exact Or.inl ((simLeB_pos_iff a b ha (h ▸ ha)).mpr hle)
      · exact Or.inr ((simLeB_pos_iff b a (h ▸ ha) ha).mpr hle)
  · exact Or.inr (simLeB_of_sign_lt b a h)

theorem simLeB_trans (a b c : ℚ × ℚ) (hab : simLeB a b = true) (hbc : simLeB b c = true) :
    simLeB a c = true := by
  have sab := sign_le_of_simLeB a b hab
  have sbc := sign_le_of_simLeB b c hbc
  rcases lt_or_eq_of_le (le_trans sab sbc) with hlt | heq
  · exact simLeB_of_sign_lt a c hlt
  · have h1 : simSign a = simSign b := by omega
    have h2 : simSign b = simSign c := by omega
    rcases simSign_mem a with ha | ha | ha
    · have hPa := simSign_eq_neg_one a ha
      have hPb := simSign_eq_neg_one b (h1 ▸ ha)
      have hPc := simSign_eq_neg_one c (h2 ▸ h1 ▸ ha)
      rw [simLeB_neg_iff a b ha (h1 ▸ ha)] at hab
      rw [simLeB_neg_iff b c (h1 ▸ ha) (h2 ▸ h1 ▸ ha)] at hbc
      rw [simLeB_neg_iff a c ha (h2 ▸ h1 ▸ ha)]
      nlinarith [mul_le_mul_of_nonneg_right hab hPc.1.le,
        mul_le_mul_of_nonneg_right hbc hPa.1.le, hPb.1, hPa.1, hPc.1]
    · exact simLeB_zero_zero a c ha (h2 ▸ h1 ▸ ha)
    · have hPa := simSign_eq_one a ha
      have hPb := simSign_eq_one b (h1 ▸ ha)
      have hPc := simSign_eq_one c (h2 ▸ h1 ▸ ha)
      rw [simLeB_pos_iff a b ha (h1 ▸ ha)] at hab
      rw [simLeB_pos_iff b c (h1 ▸ ha) (h2 ▸ h1 ▸ ha)] at hbc
      rw [simLeB_pos_iff a c ha (h2 ▸ h1 ▸ ha)]
      nlinarith [mul_le_mul_of_nonneg_right hab hPc.1.le,
        mul_le_mul_of_nonneg_right hbc hPa.1.le, hPb.1, hPa.1, hPc.1]

theorem simValR_of_sign_one (a : ℚ × ℚ) (h : simSign a = 1) :
    0 < simValR a ∧ simValR a = ((a.1 : ℚ) : ℝ) / Real.sqrt ((a.2 : ℚ) : ℝ) := by
  obtain ⟨hP, hd⟩ := simSign_eq_one a h
  have hP2 : (0 : ℝ) < ((a.2 : ℚ) : ℝ) := by exact_mod_cast hP
  have hval : simValR a = ((a.1 : ℚ) : ℝ) / Real.sqrt ((a.2 : ℚ) : ℝ) := by
    unfold simValR; rw [if_pos hP]
  refine ⟨?_, hval⟩
  rw [hval]
  exact div_pos (by exact_mod_cast hd) (Real.sqrt_pos.mpr hP2)

theorem simValR_of_sign_neg_one (a : ℚ × ℚ) (h : simSign a = -1) :
    simValR a < 0 ∧ simValR a = ((a.1 : ℚ) : ℝ) / Real.sqrt ((a.2 : ℚ) : ℝ) := by
  obtain ⟨hP, hd⟩ := simSign_eq_neg_one a h
  have hP2 : (0 : ℝ) < ((a.2 : ℚ) : ℝ) := by exact_mod_cast hP
  have hval : simValR a = ((a.1 : ℚ) : ℝ) / Real.sqrt ((a.2 : ℚ) : ℝ) := by
    unfold simValR; rw [if_pos hP]
  refine ⟨?_, hval⟩
  rw [hval]
  exact div_neg_of_neg_of_pos (by exact_mod_cast hd) (Real.sqrt_pos.mpr hP2)

theorem simValR_of_sign_zero (a : ℚ × ℚ) (hP : 0 ≤ a.2) (h : simSign a = 0) :
    simValR a = 0 := by
  rcases simSign_eq_zero a h with h0 | h0
  · have : a.2 = 0 := le_antisymm h0 hP
    unfold simValR
    rw [if_neg]
    rw [this]; exact lt_irrefl 0
  · unfold simValR
    split_ifs with hc
    · rw [h0]; simp
    · rfl

theorem simLeB_iff_simValR_le (a b : ℚ × ℚ) (hPa : 0 ≤ a.2) (hPb : 0 ≤ b.2) :
    simLeB a b = true ↔ simValR a ≤ simValR b := by
  rcases simSign_mem a with ha | ha | ha <;> rcases simSign_mem b with hb | hb | hb
  · -- both negative
    obtain ⟨hva, hea⟩ := simValR_of_sign_neg_one a ha
    obtain ⟨hvb, heb⟩ := simValR_of_sign_neg_one b hb
    obtain ⟨hQa, hda⟩ := simSign_eq_neg_one a ha
    obtain ⟨hQb, hdb⟩ := simSign_eq_neg_one b hb
    have hPa2 : (0 : ℝ) < ((a.2 : ℚ) : ℝ) := by exact_mod_cast hQa
    have hPb2 : (0 : ℝ) < ((b.2 : ℚ) : ℝ) := by exact_mod_cast hQb
    have hxa : (0 : ℝ) < Real.sqrt ((a.2 : ℚ) : ℝ) := Real.sqrt_pos.mpr hPa2
    have hxb : (0 : ℝ) < Real.sqrt ((b.2 : ℚ) : ℝ) := Real.sqrt_pos.mpr hPb2
    have hda2 : ((a.1 : ℚ) : ℝ) < 0 := by exact_mod_cast hda
    have hdb2 : ((b.1 : ℚ) : ℝ) < 0 := by exact_mod_cast hdb
    rw [simLeB_neg_iff a b ha hb, hea, heb, div_le_div_iff hxa hxb]
    have hsq :
        -(((b.1 : ℚ) : ℝ) * Real.sqrt ((a.2 : ℚ) : ℝ)) ≤
            -(((a.1 : ℚ) : ℝ) * Real.sqrt ((b.2 : ℚ) : ℝ)) ↔
          ((b.1 : ℚ) : ℝ) ^ 2 * ((a.2 : ℚ) : ℝ) ≤ ((a.1 : ℚ) : ℝ) ^ 2 * ((b.2 : ℚ) : ℝ) := by
      rw [mul_self_le_mul_self_iff (by nlinarith) (by nlinarith)]
      have e1 := Real.sq_sqrt hPa2.le
      have e2 := Real.sq_sqrt hPb2.le
      constructor <;> intro hh <;> nlinarith [hh, e1, e2]
    constructor
    · intro hh
      have hh2 : ((b.1 : ℚ) : ℝ) ^ 2 * ((a.2 : ℚ) : ℝ) ≤ ((a.1 : ℚ) : ℝ) ^ 2 * ((b.2 : ℚ) : ℝ) := by
        exact_mod_cast hh
      linarith [hsq.mpr hh2]
    · intro hh
      have hh2 := hsq.mp (by linarith)
      exact_mod_cast hh2
  · -- a negative, b zero
    have hva := (simValR_of_sign_neg_one a ha).1
    have hvb := simValR_of_sign_zero b hPb hb
    rw [simLeB_of_sign_lt a b (by omega)]
    simp only [true_iff]
    rw [hvb]; exact hva.le
  · -- a negative, b positive
    have hva := (simValR_of_sign_neg_one a ha).1
    have hvb := (simValR_of_sign_one b hb).1
    rw [simLeB_of_sign_lt a b (by omega)]
    simp only [true_iff]
    linarith
  · -- a zero, b negative
    have hva := simValR_of_sign_zero a hPa ha
    have hvb := (simValR_of_sign_neg_one b hb).1
    rw [not_simLeB_of_sign_lt a b (by omega)]
    constructor
    · intro hh; exact absurd hh (by decide)
    · intro hh; rw [hva] at hh; linarith
  · -- both zero
    have hva := simValR_of_sign_zero a hPa ha
    have hvb := simValR_of_sign_zero b hPb hb
    rw [simLeB_zero_zero a b ha hb, hva, hvb]
    simp
  · -- a zero, b positive
    have hva := simValR_of_sign_zero a hPa ha
    have hvb := (simValR_of_sign_one b hb).1
    rw [simLeB_of_sign_lt a b (by omega)]
    simp only [true_iff]
    rw [hva]; exact hvb.le
  · -- a positive, b negative
    have hva := (simValR_of_sign_one a ha).1
    have hvb := (simValR_of_sign_neg_one b hb).1
    rw [not_simLeB_of_sign_lt a b (by omega)]
    constructor
    · intro hh; exact absurd hh (by decide)
    · intro hh; linarith
  · -- a positive, b zero
    have hva := (simValR_of_sign_one a ha).1
    have hvb := simValR_of_sign_zero b hPb hb
    rw [not_simLeB_of_sign_lt a b (by omega)]
    constructor
    · intro hh; exact absurd hh (by decide)
    · intro hh; rw [hvb] at hh; linarith
  · -- both positive
    obtain ⟨hva, hea⟩ := simValR_of_sign_one a ha
    obtain ⟨hvb, heb⟩ := simValR_of_sign_one b hb
    obtain ⟨hQa, hda⟩ := simSign_eq_one a ha
    obtain ⟨hQb, hdb⟩ := simSign_eq_one b hb
    have hPa2 : (0 : ℝ) < ((a.2 : ℚ) : ℝ) := by exact_mod_cast hQa
    have hPb2 : (0 : ℝ) < ((b.2 : ℚ) : ℝ) := by exact_mod_cast hQb
    have hxa : (0 : ℝ) < Real.sqrt ((a.2 : ℚ) : ℝ) := Real.sqrt_pos.mpr hPa2
    have hxb : (0 : ℝ) < Real.sqrt ((b.2 : ℚ) : ℝ) := Real.sqrt_pos.mpr hPb2
    have hda2 : (0 : ℝ) < ((a.1 : ℚ) : ℝ) := by exact_mod_cast hda
    have hdb2 : (0 : ℝ) < ((b.1 : ℚ) : ℝ) := by exact_mod_cast hdb
    rw [simLeB_pos_iff a b ha hb, hea, heb, div_le_div_iff hxa hxb]
    have hsq :
        ((a.1 : ℚ) : ℝ) * Real.sqrt ((b.2 : ℚ) : ℝ) ≤
            ((b.1 : ℚ) : ℝ) * Real.sqrt ((a.2 : ℚ) : ℝ) ↔
          ((a.1 : ℚ) : ℝ) ^ 2 * ((b.2 : ℚ) : ℝ) ≤ ((b.1 : ℚ) : ℝ) ^ 2 * ((a.2 : ℚ) : ℝ) := by
      rw [mul_self_le_mul_self_iff (by positivity) (by positivity)]
      have e1 := Real.sq_sqrt hPa2.le
      have e2 := Real.sq_sqrt hPb2.le
      constructor <;> intro hh <;> nlinarith [hh, e1, e2]
    constructor
    · intro hh
      have hh2 : ((a.1 : ℚ) : ℝ) ^ 2 * ((b.2 : ℚ) : ℝ) ≤ ((b.1 : ℚ) : ℝ) ^ 2 * ((a.2 : ℚ) : ℝ) := by
        exact_mod_cast hh
      exact hsq.mpr hh2
    · intro hh
      have hh2 := hsq.mp hh
      exact_mod_cast hh2

theorem simLtB_iff_simValR_lt (a b : ℚ × ℚ) (hPa : 0 ≤ a.2) (hPb : 0 ≤ b.2) :
    simLtB a b = true ↔ simValR a < simValR b := by
  unfold simLtB
  rw [Bool.and_eq_true, Bool.not_eq_true']
  rw [lt_iff_le_not_le]
  constructor
  · rintro ⟨h1, h2⟩
    refine ⟨(simLeB_iff_simValR_le a b hPa hPb).mp h1, ?_⟩
    intro hc
    rw [(simLeB_iff_simValR_le b a hPb hPa).mpr hc] at h2
    exact absurd h2 (by decide)
  · rintro ⟨h1, h2⟩
    refine ⟨(simLeB_iff_simValR_le a b hPa hPb).mpr h1, ?_⟩
    rcases hv : simLeB b a
    · rfl
    · exact absurd ((simLeB_iff_simValR_le b a hPb hPa).mp hv) h2

theorem simEqB_iff_simValR_eq (a b : ℚ × ℚ) (hPa : 0 ≤ a.2) (hPb : 0 ≤ b.2) :
    simEqB a b = true ↔ simValR a = simValR b := by
  unfold simEqB
  rw [Bool.and_eq_true]
  constructor
  · rintro ⟨h1, h2⟩
    exact le_antisymm ((simLeB_iff_simValR_le a b hPa hPb).mp h1)
      ((simLeB_iff_simValR_le b a hPb hPa).mp h2)
  · intro h
    exact ⟨(simLeB_iff_simValR_le a b hPa hPb).mpr h.le,
      (simLeB_iff_simValR_le b a hPb hPa).mpr h.ge⟩

theorem dotProd_self_nonneg (v : List ℚ) : 0 ≤ dotProd v v := by
  induction v with
  | nil => simp [dotProd]
  | cons a t ih =>
    have : dotProd (a :: t) (a :: t) = a * a + dotProd t t := by
      simp [dotProd]
    rw [this]
    nlinarith [mul_self_nonneg a]

theorem simKey_snd_nonneg (q v : List ℚ) : 0 ≤ (simKey q v).2 :=
  mul_nonneg (dotProd_self_nonneg q) (dotProd_self_nonneg v)

/-- The real cosine similarity the source computes
(`dot / (norm1 * norm2)` with the zero guard) coincides with the value
encoded by the exact pair `simKey`. -/
theorem cosineSimilarity_eq_simValR (q v : List ℚ) :
    cosineSimilarity q v = simValR (simKey q v) := by
  unfold cosineSimilarity simValR simKey
  have hq := dotProd_self_nonneg q
  have hv := dotProd_self_nonneg v
  have hq2 : (0 : ℝ) ≤ ((dotProd q q : ℚ) : ℝ) := by exact_mod_cast hq
  have hmul : Real.sqrt ((dotProd q q : ℚ) : ℝ) * Real.sqrt ((dotProd v v : ℚ) : ℝ) =
      Real.sqrt (((dotProd q q * dotProd v v : ℚ) : ℚ) : ℝ) := by
    push_cast
    rw [Real.sqrt_mul hq2]
  simp only [hmul]
  have hiff : 0 < Real.sqrt (((dotProd q q * dotProd v v : ℚ) : ℚ) : ℝ) ↔
      0 < (dotProd q q * dotProd v v : ℚ) := by
    rw [Real.sqrt_pos]
    exact ⟨fun h => by exact_mod_cast h, fun h => by exact_mod_cast h⟩
  split_ifs with h1 h2 h2
  · rfl
  · exact absurd (hiff.mp h1) h2
  · exact absurd (hiff.mpr h2) h1
  · rfl

/-! ### The index comparison used to model `np.argsort` -/

theorem simLtB_or_simEqB_or_gt (a b : ℚ × ℚ) :
    simLtB a b = true ∨ simEqB a b = true ∨ simLtB b a = true := by
  unfold simLtB simEqB
  rcases h1 : simLeB a b <;> rcases h2 : simLeB b a <;> simp
  rcases simLeB_total a b with h | h
  · rw [h] at h1; exact absurd h1 (by decide)
  · rw [h] at h2; exact absurd h2 (by decide)

theorem simLtB_le_left (a b : ℚ × ℚ) (h : simLtB a b = true) : simLeB a b = true := by
  unfold simLtB at h
  rw [Bool.and_eq_true] at h
  exact h.1

theorem simLtB_not_rev (a b : ℚ × ℚ) (h : simLtB a b = true) : simLeB b a = false := by
  unfold simLtB at h
  rw [Bool.and_eq_true, Bool.not_eq_true'] at h
  exact h.2

theorem idxLeB_total (sims : List (ℚ × ℚ)) (i j : Nat) :
    idxLeB sims i j = true ∨ idxLeB sims j i = true := by
  unfold idxLeB
  rcases simLtB_or_simEqB_or_gt (sims.getD i (0, 0)) (sims.getD j (0, 0)) with h | h | h
  · left; rw [h]; rfl
  · have hsym : simEqB (sims.getD j (0, 0)) (sims.getD i (0, 0)) = true := by
      unfold simEqB at h ⊢
      rw [Bool.and_eq_true] at h
      rw [Bool.and_eq_true]
      exact ⟨h.2, h.1⟩
    rcases Nat.le_total i j with hij | hij
    · left; rw [h]; simp [hij]
    · right; rw [hsym]; simp [hij]
  · right; rw [h]; rfl

theorem simEqB_symm (a b : ℚ × ℚ) (h : simEqB a b = true) : simEqB b a = true := by
  unfold simEqB at h ⊢
  rw [Bool.and_eq_true] at h
  rw [Bool.and_eq_true]
  exact ⟨h.2, h.1⟩

theorem simLtB_trans (a b c : ℚ × ℚ) (h1 : simLtB a b = true) (h2 : simLtB b c = true) :
    simLtB a c = true := by
  unfold simLtB
  rw [Bool.and_eq_true, Bool.not_eq_true']
  refine ⟨simLeB_trans a b c (simLtB_le_left a b h1) (simLtB_le_left b c h2), ?_⟩
  rcases hv : simLeB c a
  · rfl
  · have : simLeB c b = true := simLeB_trans c a b hv (simLtB_le_left a b h1)
    rw [simLtB_not_rev b c h2] at this
    exact absurd this (by decide)

theorem simLtB_trans_eq_right (a b c : ℚ × ℚ) (h1 : simLtB a b = true)
    (h2 : simEqB b c = true) : simLtB a c = true := by
  unfold simEqB at h2
  rw [Bool.and_eq_true] at h2
  unfold simLtB
  rw [Bool.and_eq_true, Bool.not_eq_true']
  refine ⟨simLeB_trans a b c (simLtB_le_left a b h1) h2.1, ?_⟩
  rcases hv : simLeB c a
  · rfl
  · have : simLeB b a = true := simLeB_trans b c a h2.1 hv
    rw [simLtB_not_rev a b h1] at this
    exact absurd this (by decide)

theorem simLtB_trans_eq_left (a b c : ℚ × ℚ) (h1 : simEqB a b = true)
    (h2 : simLtB b c = true) : simLtB a c = true := by
  unfold simEqB at h1
  rw [Bool.and_eq_true] at h1
  unfold simLtB
  rw [Bool.and_eq_true, Bool.not_eq_true']
  refine ⟨simLeB_trans a b c h1.1 (simLtB_le_left b c h2), ?_⟩
  rcases hv : simLeB c a
  · rfl
  · have : simLeB c b = true := simLeB_trans c a b hv h1.1
    rw [simLtB_not_rev b c h2] at this
    exact absurd this (by decide)

theorem simEqB_trans (a b c : ℚ × ℚ) (h1 : simEqB a b = true) (h2 : simEqB b c = true) :
    simEqB a c = true := by
  unfold simEqB at h1 h2 ⊢
  rw [Bool.and_eq_true] at h1 h2
  rw [Bool.and_eq_true]
  exact ⟨simLeB_trans a b c h1.1 h2.1, simLeB_trans c b a h2.2 h1.2⟩

theorem idxLeB_trans (sims : List (ℚ × ℚ)) (i j k : Nat) (h1 : idxLeB sims i j = true)
    (h2 : idxLeB sims j k = true) : idxLeB sims i k = true := by
  unfold idxLeB at h1 h2 ⊢
  rw [Bool.or_eq_true, Bool.and_eq_true, decide_eq_true_eq] at h1 h2 ⊢
  rcases h1 with h1 | ⟨h1e, h1i⟩ <;> rcases h2 with h2 | ⟨h2e, h2i⟩
  · exact Or.inl (simLtB_trans _ _ _ h1 h2)
  · exact Or.inl (simLtB_trans_eq_right _ _ _ h1 h2e)
  · exact Or.inl (simLtB_trans_eq_left _ _ _ h1e h2)
  · exact Or.inr ⟨simEqB_trans _ _ _ h1e h2e, le_trans h1i h2i⟩

theorem argsortSims_perm (sims : List (ℚ × ℚ)) :
    List.Perm (argsortSims sims) (List.range sims.length) :=
  List.perm_insertionSort _ _

theorem argsortSims_sorted (sims : List (ℚ × ℚ)) :
    (argsortSims sims).Pairwise (fun i j => idxLeB sims i j = true) := by
  haveI : IsTotal Nat (fun i j => idxLeB sims i j = true) := ⟨fun i j => idxLeB_total sims i j⟩
  haveI : IsTrans Nat (fun i j => idxLeB sims i j = true) :=
    ⟨fun i j k => idxLeB_trans sims i j k⟩
  exact List.sorted_insertionSort _ _

theorem argsortSims_length (sims : List (ℚ × ℚ)) :
    (argsortSims sims).length = sims.length := by
  rw [(argsortSims_perm sims).length_eq, List.length_range]

/-- The sliced index list before the final reversal. -/
theorem queryIndices_eq_reverse {α : Type} (db : InMemoryVectorDB α) (q : List ℚ) (k : Nat) :
    ∃ s, db.queryIndices q k = s.reverse ∧ List.Sublist s (argsortSims (db.querySims q)) ∧
      s.Pairwise (fun i j => idxLeB (db.querySims q) i j = true) ∧
      (k = 0 → s.length = (db.querySims q).length) ∧
      (k ≠ 0 → s.length = min k (db.querySims q).length) := by
  unfold InMemoryVectorDB.queryIndices
  by_cases hk : k = 0
  · refine ⟨argsortSims (db.querySims q), by simp [hk], List.Sublist.refl _,
      argsortSims_sorted _, fun _ => argsortSims_length _, fun h => absurd hk h⟩
  · refine ⟨(argsortSims (db.querySims q)).drop
        ((argsortSims (db.querySims q)).length - min k (argsortSims (db.querySims q)).length),
      by simp [hk], List.drop_sublist _ _, ?_, fun h => absurd h hk, fun _ => ?_⟩
    · exact (argsortSims_sorted _).sublist (List.drop_sublist _ _)
    · rw [List.length_drop, argsortSims_length]
      omega

theorem queryIndices_pairwise {α : Type} (db : InMemoryVectorDB α) (q : List ℚ) (k : Nat) :
    (db.queryIndices q k).Pairwise (fun i j => idxLeB (db.querySims q) j i = true) := by
  obtain ⟨s, he, _, hp, _, _⟩ := queryIndices_eq_reverse db q k
  rw [he]
  exact List.pairwise_reverse.mpr hp

theorem queryIndices_nodup {α : Type} (db : InMemoryVectorDB α) (q : List ℚ) (k : Nat) :
    (db.queryIndices q k).Nodup := by
  obtain ⟨s, he, hsub, _, _, _⟩ := queryIndices_eq_reverse db q k
  rw [he, List.nodup_reverse]
  exact hsub.nodup ((argsortSims_perm _).symm.nodup (List.nodup_range _))

theorem queryIndices_mem_lt {α : Type} (db : InMemoryVectorDB α) (q : List ℚ) (k : Nat) :
    ∀ i ∈ db.queryIndices q k, i < db.vectors.length := by
  obtain ⟨s, he, hsub, _, _, _⟩ := queryIndices_eq_reverse db q k
  intro i hi
  rw [he, List.mem_reverse] at hi
  have : i ∈ List.range (db.querySims q).length :=
    (argsortSims_perm _).mem_iff.mp (hsub.mem hi)
  rw [List.mem_range] at this
  unfold InMemoryVectorDB.querySims at this
  rw [List.length_map] at this
  exact this

theorem queryIndices_length {α : Type} (db : InMemoryVectorDB α) (q : List ℚ) (k : Nat) :
    (k = 0 → (db.queryIndices q k).length = db.vectors.length) ∧
    (k ≠ 0 → (db.queryIndices q k).length = min k db.vectors.length) := by
  obtain ⟨s, he, _, _, h0, h1⟩ := queryIndices_eq_reverse db q k
  have hlen : (db.querySims q).length = db.vectors.length := by
    unfold InMemoryVectorDB.querySims; rw [List.length_map]
  constructor
  · intro hk; rw [he, List.length_reverse, h0 hk, hlen]
  · intro hk; rw [he, List.length_reverse, h1 hk, hlen]

/-- For an index inside the store, the exact similarity data at that index
is `simKey` of the query and the stored vector. -/
theorem querySims_getD {α : Type} (db : InMemoryVectorDB α) (q : List ℚ) (i : Nat)
    (hi : i < db.vectors.length) :
    (db.querySims q).getD i (0, 0) = simKey q (db.vectors.getD i []) := by
  unfold InMemoryVectorDB.querySims
  rw [List.getD_eq_getElem?_getD, List.getD_eq_getElem?_getD]
  rw [List.getElem?_map]
  rw [List.getElem?_eq_getElem hi]
  simp

theorem query_eq_of_nonempty {α : Type} [Inhabited α] (db : InMemoryVectorDB α)
    (q : List ℚ) (k : Nat) (hne : db.vectors ≠ [])
    (hdims : ∀ v ∈ db.vectors, v.length = q.length) :
    db.query q k =
      Except.ok ((db.queryIndices q k).map (fun i => db.metadatas.getD i default)) := by
  unfold InMemoryVectorDB.query
  have h1 : db.vectors.isEmpty = false := by
    rcases hv : db.vectors with _ | ⟨a, t⟩
    · exact absurd hv hne
    · rfl
  have h2 : db.vectors.any (fun v => v.length ≠ q.length) = false := by
    rw [List.any_eq_false]
    intro v hv
    simp [hdims v hv]
  rw [h1, h2]
  rfl

/-- C6 (amended).  On a non-empty store whose vectors match the query
vector's dimension, `query` returns the metadata at the indices
`queryIndices`; those indices are distinct positions of the store and are
ordered by DESCENDING real cosine similarity, records with equal
similarity appearing in REVERSE insertion order (the ascending stable
argsort is sliced and then reversed, which flips the order of ties). -/
theorem query_ranked_descending {α : Type} [Inhabited α] (db : InMemoryVectorDB α)
    (q : List ℚ) (k : Nat) (hne : db.vectors ≠ [])
    (hdims : ∀ v ∈ db.vectors, v.length = q.length) :
    db.query q k =
      Except.ok ((db.queryIndices q k).map (fun i => db.metadatas.getD i default)) ∧
    (∀ i ∈ db.queryIndices q k, i < db.vectors.length) ∧
    (db.queryIndices q k).Nodup ∧
    (db.queryIndices q k).Pairwise (fun i j =>
      cosineSimilarity q (db.vectors.getD j []) ≤ cosineSimilarity q (db.vectors.getD i []) ∧
      (cosineSimilarity q (db.vectors.getD i []) = cosineSimilarity q (db.vectors.getD j []) →
        j < i)) := by
  refine ⟨query_eq_of_nonempty db q k hne hdims, queryIndices_mem_lt db q k,
    queryIndices_nodup db q k, ?_⟩
  have hpw := (queryIndices_pairwise db q k).and (queryIndices_nodup db q k)
  refine hpw.imp_of_mem ?_
  intro i j hi hj hij
  obtain ⟨hle, hne2⟩ := hij
  have hi' : i < db.vectors.length := queryIndices_mem_lt db q k i hi
  have hj' : j < db.vectors.length := queryIndices_mem_lt db q k j hj
  have hki := querySims_getD db q i hi'
  have hkj := querySims_getD db q j hj'
  have hPi := simKey_snd_nonneg q (db.vectors.getD i [])
  have hPj := simKey_snd_nonneg q (db.vectors.getD j [])
  unfold idxLeB at hle
  rw [hkj, hki] at hle
  rw [Bool.or_eq_true, Bool.and_eq_true, decide_eq_true_eq] at hle
  rw [cosineSimilarity_eq_simValR, cosineSimilarity_eq_simValR]
  rcases hle with hlt | ⟨heq, hji⟩
  · have := (simLtB_iff_simValR_lt _ _ hPj hPi).mp hlt
    exact ⟨this.le, fun he => absurd (he ▸ this) (lt_irrefl _)⟩
  · have := (simEqB_iff_simValR_eq _ _ hPj hPi).mp heq
    exact ⟨this.le, fun _ => Nat.lt_of_le_of_ne hji (fun he => hne2 he.symm)⟩

/-- C6 counterexample.  Store `[1,0]` (metadata `10`) then `[2,0]`
(metadata `20`); both have cosine similarity exactly `1` to the query
`[1,0]` (second conjunct), yet `query` returns `[20, 10]` — the tie
surfaces in REVERSE insertion order, not insertion order as claimed. -/
theorem query_tie_insertion_order_cex :
    InMemoryVectorDB.query (α := Nat) ⟨[[1, 0], [2, 0]], [10, 20], ["id0", "id1"], 2⟩ [1, 0] 2 =
      Except.ok [20, 10] ∧
    simEqB (simKey [1, 0] [1, 0]) (simKey [1, 0] [2, 0]) = true := by
  constructor
  · norm_num [InMemoryVectorDB.query, InMemoryVectorDB.queryIndices, InMemoryVectorDB.querySims,
      argsortSims, simKey, dotProd, idxLeB, simLtB, simEqB, simLeB, simSign,
      List.range_succ]
  · norm_num [simEqB, simLeB, simKey, dotProd, simSign]

/-- C7 counterexample.  On a one-record store, `query` with `top_k = 0`
returns that record rather than at most `0` results: the slice `[-0:]`
keeps the WHOLE sorted index list. -/
theorem query_topk_zero_cex :
    InMemoryVectorDB.query (α := Nat) ⟨[[1]], [7], ["id0"], 1⟩ [1] 0 = Except.ok [7] := by
  norm_num [InMemoryVectorDB.query, InMemoryVectorDB.queryIndices, InMemoryVectorDB.querySims,
    argsortSims, simKey, dotProd, idxLeB, simLtB, simEqB, simLeB, simSign, List.range_succ]

/-- C7 (amended).  For `top_k ≥ 1`, `query` returns at most `top_k`
results; an empty store (in particular one just cleared) yields the empty
result for every `top_k`.  (For `top_k = 0` on a non-empty store the
Python slice `[-0:]` instead selects every record —
`query_topk_zero_cex`.) -/
theorem query_topk_bound {α : Type} [Inhabited α] (db : InMemoryVectorDB α)
    (q : List ℚ) (k : Nat) (hk : 1 ≤ k) :
    (∀ l, db.query q k = Except.ok l → l.length ≤ k) ∧
    (db.vectors = [] → db.query q k = Except.ok []) ∧
    (∀ k2 q2, (db.clear).query q2 k2 = Except.ok []) := by
  refine ⟨?_, ?_, ?_⟩
  · intro l hl
    unfold InMemoryVectorDB.query at hl
    rcases he : db.vectors.isEmpty with _ | _
    · rw [he] at hl
      simp only [Bool.false_eq_true, if_false] at hl
      rcases ha : db.vectors.any (fun v => v.length ≠ q.length) with _ | _
      · rw [ha] at hl
        simp only [Bool.false_eq_true, if_false, Except.ok.injEq] at hl
        rw [← hl, List.length_map]
        rw [(queryIndices_length db q k).2 (by omega)]
        omega
      · rw [ha] at hl
        simp at hl
    · rw [he] at hl
      simp only [if_true, Except.ok.injEq] at hl
      rw [← hl]
      simp
  · intro he
    unfold InMemoryVectorDB.query
    rw [he]
    rfl
  · intro k2 q2
    unfold InMemoryVectorDB.clear InMemoryVectorDB.query
    rfl

theorem addFold_fields {α : Type} (l : List (List ℚ × α)) (acc : InMemoryVectorDB α) :
    (l.foldl
        (fun acc em =>
          { vectors := acc.vectors ++ [em.1]
            metadatas := acc.metadatas ++ [em.2]
            ids := acc.ids ++ [toString acc.nextId]
            nextId := acc.nextId + 1 })
        acc).vectors = acc.vectors ++ l.map Prod.fst ∧
    (l.foldl
        (fun acc em =>
          { vectors := acc.vectors ++ [em.1]
            metadatas := acc.metadatas ++ [em.2]
            ids := acc.ids ++ [toString acc.nextId]
            nextId := acc.nextId + 1 })
        acc).metadatas = acc.metadatas ++ l.map Prod.snd ∧
    (l.foldl
        (fun acc em =>
          { vectors := acc.vectors ++ [em.1]
            metadatas := acc.metadatas ++ [em.2]
            ids := acc.ids ++ [toString acc.nextId]
            nextId := acc.nextId + 1 })
        acc).ids.length = acc.ids.length + l.length := by
  induction l generalizing acc with
  | nil => simp
  | cons p t ih =>
    obtain ⟨h1, h2, h3⟩ := ih
      { vectors := acc.vectors ++ [p.1]
        metadatas := acc.metadatas ++ [p.2]
        ids := acc.ids ++ [toString acc.nextId]
        nextId := acc.nextId + 1 }
    refine ⟨?_, ?_, ?_⟩
    · rw [List.foldl_cons, h1]; simp
    · rw [List.foldl_cons, h2]; simp
    · rw [List.foldl_cons, h3]; simp; omega

/-- The result of a successful `add`: the three lists are extended in
lockstep, the vectors by exactly the given embeddings. -/
theorem add_ok_fields {α : Type} [Inhabited α] (db : InMemoryVectorDB α)
    (E : List (List ℚ)) (M : Option (List α)) (db2 : InMemoryVectorDB α)
    (h : db.add E M = Except.ok db2) :
    db2.vectors = db.vectors ++ E ∧
    db2.metadatas.length = db.metadatas.length + E.length ∧
    db2.ids.length = db.ids.length + E.length := by
  unfold InMemoryVectorDB.add at h
  rcases M with _ | M
  · dsimp only at h
    rw [if_neg (by simp)] at h
    simp only [Except.ok.injEq] at h
    obtain ⟨h1, h2, h3⟩ := addFold_fields (E.zip (List.map (fun _ => (default : α)) E)) db
    rw [h] at h1 h2 h3
    have hlen : (E.zip (List.map (fun _ => (default : α)) E)).length = E.length := by
      rw [List.length_zip, List.length_map]; omega
    refine ⟨?_, ?_, ?_⟩
    · rw [h1, List.map_fst_zip _ _ (by simp)]
    · rw [h2, List.length_append, List.length_map, hlen]
    · rw [h3, hlen]
  · dsimp only at h
    by_cases hlen : E.length = M.length
    · rw [if_neg (by omega)] at h
      simp only [Except.ok.injEq] at h
      obtain ⟨h1, h2, h3⟩ := addFold_fields (E.zip M) db
      rw [h] at h1 h2 h3
      have hzl : (E.zip M).length = E.length := by rw [List.length_zip]; omega
      refine ⟨?_, ?_, ?_⟩
      · rw [h1, List.map_fst_zip _ _ (by omega)]
      · rw [h2, List.length_append, List.length_map, hzl]
      · rw [h3, hzl]
    · rw [if_pos (by omega)] at h
      exact absurd h (by simp)

/-- C8.  `add` with matching lengths (or omitted metadata) extends the
record count by exactly `len(E)`; a length mismatch raises `ValueError`
before the insertion loop runs, so no state is produced (all-or-nothing
in the functional embedding, matching the source where the check precedes
the loop). -/
theorem add_count_and_mismatch {α : Type} [Inhabited α] (db : InMemoryVectorDB α)
    (E : List (List ℚ)) (M : List α) :
    (E.length = M.length →
      ∃ db2, db.add E (some M) = Except.ok db2 ∧
        db2.vectors.length = db.vectors.length + E.length) ∧
    (E.length ≠ M.length →
      db.add E (some M) =
        Except.error (PyErr.valueError "Number of embeddings must match number of metadatas")) ∧
    (∃ db2, db.add E none = Except.ok db2 ∧
      db2.vectors.length = db.vectors.length + E.length) := by
  refine ⟨?_, ?_, ?_⟩
  · intro hlen
    rcases hadd : db.add E (some M) with e | db2
    · exfalso
      unfold InMemoryVectorDB.add at hadd
      dsimp only at hadd
      rw [if_neg (by omega)] at hadd
      exact absurd hadd (by simp)
    · obtain ⟨h1, _, _⟩ := add_ok_fields db E (some M) db2 hadd
      exact ⟨db2, rfl, by rw [h1, List.length_append]⟩
  · intro hlen
    unfold InMemoryVectorDB.add
    dsimp only
    rw [if_pos (by omega)]
  · rcases hadd : db.add E none with e | db2
    · exfalso
      unfold InMemoryVectorDB.add at hadd
      dsimp only at hadd
      rw [if_neg (by simp)] at hadd
      exact absurd hadd (by simp)
    · obtain ⟨h1, _, _⟩ := add_ok_fields db E none db2 hadd
      exact ⟨db2, rfl, by rw [h1, List.length_append]⟩

theorem getD_mem_of_lt {β : Type} (l : List β) (i : Nat) (d : β) (hi : i < l.length) :
    l.getD i d ∈ l := by
  rw [List.getD_eq_getElem?_getD, List.getElem?_eq_getElem hi]
  exact List.getElem_mem hi

/-- C9 (amended).  The store enforces no dimensionality invariant: a
successful `add` appends exactly the given embeddings, whatever their
lengths (first conjunct; `add_mixed_dims_cex` exhibits a reachable store
with mixed dimensions).  What the operations do preserve: the three
parallel lists stay in lockstep, `delete` and `clear` preserve uniform
dimensionality, and `add` preserves it exactly when the appended
embeddings share the store's dimensionality. -/
theorem store_invariants {α : Type} [Inhabited α] (db : InMemoryVectorDB α) :
    (∀ E M db2, db.add E M = Except.ok db2 →
      db2.vectors = db.vectors ++ E ∧ (db.WF → db2.WF) ∧
      ((∀ u ∈ db.vectors ++ E, ∀ v ∈ db.vectors ++ E, u.length = v.length) →
        db2.uniformDim)) ∧
    (∀ ids, (db.delete ids).WF ∧
      (db.WF → db.uniformDim → (db.delete ids).uniformDim)) ∧
    (db.clear.WF ∧ db.clear.uniformDim) ∧
    ((InMemoryVectorDB.init : InMemoryVectorDB α).WF ∧
      (InMemoryVectorDB.init : InMemoryVectorDB α).uniformDim) := by
  refine ⟨?_, ?_, ?_, ?_⟩
  · intro E M db2 hadd
    obtain ⟨h1, h2, h3⟩ := add_ok_fields db E M db2 hadd
    refine ⟨h1, ?_, ?_⟩
    · rintro ⟨w1, w2⟩
      constructor
      · rw [h1, List.length_append, h2, w1]
      · rw [h2, h3, w2]
    · intro hu
      unfold InMemoryVectorDB.uniformDim
      rw [h1]
      exact hu
  · intro ids
    constructor
    · unfold InMemoryVectorDB.delete InMemoryVectorDB.WF
      simp
    · rintro ⟨w1, w2⟩ hu
      unfold InMemoryVectorDB.delete InMemoryVectorDB.uniformDim
      simp only [List.mem_map]
      rintro u ⟨i, hi, rfl⟩ v ⟨j, hj, rfl⟩
      have hi2 : i < db.vectors.length := by
        have := List.mem_range.mp (List.mem_of_mem_filter hi)
        omega
      have hj2 : j < db.vectors.length := by
        have := List.mem_range.mp (List.mem_of_mem_filter hj)
        omega
      exact hu _ (getD_mem_of_lt _ _ _ hi2) _ (getD_mem_of_lt _ _ _ hj2)
  · refine ⟨⟨rfl, rfl⟩, ?_⟩
    intro u hu
    exact absurd hu (List.not_mem_nil u)
  · refine ⟨⟨rfl, rfl⟩, ?_⟩
    intro u hu
    exact absurd hu (List.not_mem_nil u)

/-- C9 counterexample.  From the empty store, one `add` call (with its
length precondition satisfied: metadata omitted) inserts a 1-dimensional
and a 2-dimensional vector, so the resulting store violates the claimed
all-vectors-share-dimensionality invariant. -/
theorem add_mixed_dims_cex :
    ∃ db2, (InMemoryVectorDB.init : InMemoryVectorDB Nat).add [[1], [1, 2]] none =
        Except.ok db2 ∧
      ¬ db2.uniformDim := by
  rcases hadd : (InMemoryVectorDB.init : InMemoryVectorDB Nat).add [[1], [1, 2]] none
    with e | db2
  · exfalso
    unfold InMemoryVectorDB.add at hadd
    dsimp only at hadd
    rw [if_neg (by simp)] at hadd
    exact absurd hadd (by simp)
  · refine ⟨db2, rfl, ?_⟩
    obtain ⟨h1, _, _⟩ := add_ok_fields _ _ _ _ hadd
    intro hu
    have := hu [1] (by rw [h1]; simp) [1, 2] (by rw [h1]; simp)
    simp at this

/-- C4.  `chat` appends the user message, calls the backend on a context
that already contains it, appends the assistant completion, and returns
the completion; on a fresh context the history is exactly those two
messages, and clearing afterwards empties it. -/
theorem provider_chat_contract (backend : String → List Message → String)
    (h : ChatHistory) (m t1 t2 : String) :
    (BaseProvider.chat backend h m t1 t2).2.messages =
      h.messages ++
        [⟨"user", m, t1⟩, ⟨"assistant", (BaseProvider.chat backend h m t1 t2).1, t2⟩] ∧
    (BaseProvider.chat backend h m t1 t2).1 = backend m (h.messages ++ [⟨"user", m, t1⟩]) ∧
    (h.messages = [] → (BaseProvider.chat backend h m t1 t2).2.messages =
      [⟨"user", m, t1⟩, ⟨"assistant", (BaseProvider.chat backend h m t1 t2).1, t2⟩]) ∧
    (BaseProvider.clear_chat_history (BaseProvider.chat backend h m t1 t2).2).messages = [] := by
  refine ⟨?_, ?_, ?_, ?_⟩
  · simp [BaseProvider.chat, ChatHistory.add_message, ChatHistory.get_history]
  · simp [BaseProvider.chat, ChatHistory.add_message, ChatHistory.get_history]
  · intro he
    simp [BaseProvider.chat, ChatHistory.add_message, ChatHistory.get_history, he]
  · simp [BaseProvider.clear_chat_history, ChatHistory.clear_history]

theorem sharedWorld_refOf (s : ProviderClassState) (hs : s.SharedWorld) (p : Nat) :
    s.refOf p = 0 := by
  unfold ProviderClassState.refOf
  rw [List.getD_eq_getElem?_getD]
  rcases hep : s.providerRefs[p]? with _ | r
  · rfl
  · have : r ∈ s.providerRefs := by
      exact List.getElem?_mem hep
    simp only [Option.getD_some]
    exact hs.2.2 r this

theorem heapGet_heapSet_zero (s : ProviderClassState) (h : ChatHistory) (hne : s.heap ≠ []) :
    (s.heapSet 0 h).heapGet 0 = h := by
  unfold ProviderClassState.heapSet ProviderClassState.heapGet
  rcases hh : s.heap with _ | ⟨a, t⟩
  · exact absurd hh hne
  · rfl

theorem heapSet_sharedWorld (s : ProviderClassState) (r : Nat) (h : ChatHistory)
    (hs : s.SharedWorld) : (s.heapSet r h).SharedWorld := by
  obtain ⟨h1, h2, h3⟩ := hs
  refine ⟨h1, ?_, h3⟩
  rcases hh : s.heap with _ | ⟨a, t⟩
  · exact absurd hh h2
  · unfold ProviderClassState.heapSet
    rw [hh]
    rcases r with _ | r <;> simp

theorem mkProviders_sharedWorld (n : Nat) :
    (ProviderClassState.mkProviders n).SharedWorld ∧
      (ProviderClassState.mkProviders n).providerRefs.length = n := by
  induction n with
  | zero =>
    refine ⟨⟨rfl, by simp [ProviderClassState.mkProviders, ProviderClassState.classBody], ?_⟩, rfl⟩
    intro r hr
    exact absurd hr (List.not_mem_nil r)
  | succ k ih =>
    obtain ⟨⟨i1, i2, i3⟩, ilen⟩ := ih
    refine ⟨⟨i1, i2, ?_⟩, ?_⟩
    · intro r hr
      unfold ProviderClassState.mkProviders ProviderClassState.construct at hr
      simp only [List.mem_append, List.mem_singleton] at hr
      rcases hr with hr | hr
      · exact i3 r hr
      · rw [hr, i1]
    · unfold ProviderClassState.mkProviders ProviderClassState.construct
      simp [ilen]

/-- C10.  The class attribute `_shared_history` is created once; every
constructed provider instance aliases it, so a `chat` through any
instance `p` is visible in `get_chat_history` of any instance `q`, and
`clear_chat_history` through any instance empties the history seen by
all.  `mkProviders n` (class body plus `n` constructions) produces such a
shared world, and both operations preserve the aliasing. -/
theorem shared_history_aliasing (n : Nat) (backend : String → List Message → String)
    (p q : Nat) (m t1 t2 : String) (s : ProviderClassState) (hs : s.SharedWorld) :
    (ProviderClassState.mkProviders n).SharedWorld ∧
    (ProviderClassState.mkProviders n).providerRefs.length = n ∧
    ((s.chat backend p m t1 t2).2.get_chat_history q =
      s.get_chat_history q ++
        [⟨"user", m, t1⟩, ⟨"assistant", (s.chat backend p m t1 t2).1, t2⟩]) ∧
    ((s.clear_chat_history p).get_chat_history q = []) ∧
    (s.chat backend p m t1 t2).2.SharedWorld ∧
    (s.clear_chat_history p).SharedWorld := by
  obtain ⟨w1, w2⟩ := mkProviders_sharedWorld n
  have hr := sharedWorld_refOf s hs
  have hchat : (s.chat backend p m t1 t2).2.SharedWorld := by
    unfold ProviderClassState.chat
    exact heapSet_sharedWorld _ _ _ hs
  have hclear : (s.clear_chat_history p).SharedWorld := by
    unfold ProviderClassState.clear_chat_history
    exact heapSet_sharedWorld _ _ _ hs
  refine ⟨w1, w2, ?_, ?_, hchat, hclear⟩
  · have hrq := sharedWorld_refOf _ hchat q
    unfold ProviderClassState.get_chat_history
    rw [hrq, hr q]
    unfold ProviderClassState.chat
    dsimp only
    rw [hr p]
    rw [heapGet_heapSet_zero _ _ hs.2.1]
    obtain ⟨c1, _, _, _⟩ := provider_chat_contract backend (s.heapGet 0) m t1 t2
    unfold ChatHistory.get_history
    rw [c1]
  · have hrq := sharedWorld_refOf _ hclear q
    unfold ProviderClassState.get_chat_history
    rw [hrq]
    unfold ProviderClassState.clear_chat_history
    rw [hr p]
    rw [heapGet_heapSet_zero _ _ hs.2.1]
    rfl

theorem alistGet_map_set {β : Type} (l : List (String × β)) (name : String) (p : β)
    (prov : β) (h : alistGet l name = some prov) :
    alistGet (l.map (fun e => if e.1 = name then (e.1, p) else e)) name = some p := by
  induction l with
  | nil => simp [alistGet] at h
  | cons hd t ih =>
    by_cases hh : hd.1 = name
    · unfold alistGet
      rw [List.map_cons, if_pos hh]
      rw [List.find?_cons_of_pos _ (by simp [hh])]
      rfl
    · unfold alistGet at h ⊢
      rw [List.find?_cons_of_neg _ (by simp [hh])] at h
      rw [List.map_cons, if_neg hh, List.find?_cons_of_neg _ (by simp [hh])]
      exact ih h

/-- C5.  Resolution splits the composite identifier on the first `/`:
an unconfigured backend fails, an unlisted model fails, and a listed
model resolves, sets the resolved provider's `model` attribute to the
requested model, and delegates the chat call to that provider. -/
theorem router_resolution (r : Router) (chatImpl : ProviderState → String → String)
    (message model_id bname mname : String)
    (hsplit : pySplit1 model_id "/" = [bname, mname]) :
    (alistGet r.providers bname = none →
      r.get_provider_and_model model_id =
        Except.error (PyErr.valueError ("Provider " ++ bname ++ " not configured"))) ∧
    (∀ prov models, alistGet r.providers bname = some prov →
      alistGet r.config bname = some models → mname ∉ models →
      r.get_provider_and_model model_id =
        Except.error (PyErr.valueError
          ("Model " ++ mname ++ " not available for provider " ++ bname))) ∧
    (∀ prov models, alistGet r.providers bname = some prov →
      alistGet r.config bname = some models → mname ∈ models →
      r.get_provider_and_model model_id = Except.ok (bname, prov, mname) ∧
      r.generate_chat_response chatImpl message (some model_id) =
        Except.ok (chatImpl { prov with model := mname } message,
          r.setProvider bname { prov with model := mname }) ∧
      alistGet (r.setProvider bname { prov with model := mname }).providers bname =
        some { prov with model := mname }) := by
  refine ⟨?_, ?_, ?_⟩
  · intro hp
    unfold Router.get_provider_and_model
    rw [hsplit]
    simp only [hp]
  · intro prov models hp hc hm
    unfold Router.get_provider_and_model
    rw [hsplit]
    simp only [hp, hc]
    rw [if_neg hm]
  · intro prov models hp hc hm
    have hres : r.get_provider_and_model model_id = Except.ok (bname, prov, mname) := by
      unfold Router.get_provider_and_model
      rw [hsplit]
      simp only [hp, hc]
      rw [if_pos hm]
    refine ⟨hres, ?_, ?_⟩
    · unfold Router.generate_chat_response
      rw [Option.getD_some]
      dsimp only
      rw [hres]
    · exact alistGet_map_set r.providers bname _ prov hp

/-- C1 (the code as written).  `Tool.__init__` binds the four attributes
and then executes `wraps(function)(this)`; `this` is an undefined name,
so EVERY construction of a `Tool` raises `NameError` instead of
returning — including the repository's own `search` and `scraper` tools
built at import time. -/
theorem tool_init_always_raises {V : Type} (name description : String)
    (f : PyFunction V) (parameters : Option (List (String × String))) :
    Tool.init name description f parameters =
      Except.error (PyErr.nameError "name this is not defined") := rfl

/-- What the constructor was meant to do (the claim's contract), stated
of the attribute bindings it performs before the failing line: name falls
back to the callable's `__name__`, the description to its docstring and
then to the generated default, and invocation forwards to the callable
unchanged. -/
theorem tool_bindAttributes_contract {V : Type} (n d : String) (f : PyFunction V)
    (p : Option (List (String × String))) (args : V) :
    ((Tool.bindAttributes n d f p).name = if n ≠ "" then n else f.fname) ∧
    ((Tool.bindAttributes n d f p).parameters = p) ∧
    (Tool.call (Tool.bindAttributes n d f p) args = f.impl args) ∧
    (n ≠ "" → (Tool.bindAttributes n d f p).name = n) ∧
    (d ≠ "" → (Tool.bindAttributes n d f p).description = d) ∧
    (d = "" → f.docstring = none →
      (Tool.bindAttributes n d f p).description =
        "Tool " ++ (Tool.bindAttributes n d f p).name) := by
  refine ⟨rfl, rfl, rfl, ?_, ?_, ?_⟩
  · intro hn
    unfold Tool.bindAttributes
    rw [if_pos hn]
  · intro hd
    unfold Tool.bindAttributes
    dsimp only
    rw [if_pos hd]
  · intro hd hdoc
    unfold Tool.bindAttributes
    dsimp only
    rw [hdoc, if_neg (by simp [hd])]

theorem agentLoop_budget {V : Type} (gen : Nat → String → String)
    (evalLiteral : String → Except PyErr V) (searchF scraperF : V → Except PyErr V)
    (reprV : V → String) (sysPrompt query : String)
    (H : ∀ i p, pyContains (gen i p) "USE_TOOL:" = true ∧
      ∃ nm v res, parseToolCall evalLiteral (gen i p) = Except.ok (nm, v) ∧
        dispatchTool searchF scraperF nm v = Except.ok res) :
    ∀ rem step cur hist, ∃ steps,
      agentLoop gen evalLiteral searchF scraperF reprV sysPrompt query rem step cur hist =
        Except.ok ⟨query, steps, "Max steps reached without conclusion"⟩ ∧
      steps.length = hist.length + rem := by
  intro rem
  induction rem with
  | zero =>
    intro step cur hist
    exact ⟨hist, rfl, by simp⟩
  | succ k ih =>
    intro step cur hist
    obtain ⟨hmark, nm, v, res, hparse, hdisp⟩ := H step (mkPrompt reprV sysPrompt cur hist)
    obtain ⟨steps, he, hl⟩ := ih (step + 1)
      ("Tool " ++ nm ++ " returned: " ++ reprStepResult reprV res ++ "\nWhat should we do next?")
      (hist ++ [⟨step, nm, v, res⟩])
    refine ⟨steps, ?_, ?_⟩
    · unfold agentLoop
      dsimp only
      rw [hmark]
      simp only [if_true]
      rw [hparse]
      dsimp only
      rw [hdisp]
      exact he
    · rw [hl]
      simp
      omega

/-- C2 (amended).  The loop always terminates (it is a total function of
the bounded budget).  If the first response carries no `USE_TOOL:` marker,
the call returns at step 0 with that response as the final answer and an
empty step list.  If every response carries the marker AND parses to a
tool call whose dispatch completes without a Python exception (unknown
tool names included — they yield the error-dict step result), the call
returns after exactly the hard-coded budget of 5 iterations with 5
recorded steps and the sentinel answer.  (A response that merely contains
the marker but fails to parse aborts the call instead —
`agent_tool_requests_abort_cex`.) -/
theorem agent_loop_terminal_and_budget {V : Type} (gen : Nat → String → String)
    (evalLiteral : String → Except PyErr V) (searchF scraperF : V → Except PyErr V)
    (reprV : V → String) (sysPrompt query : String) :
    (pyContains (gen 0 (mkPrompt reprV sysPrompt query [])) "USE_TOOL:" = false →
      webscraper_agent gen evalLiteral searchF scraperF reprV sysPrompt query =
        Except.ok ⟨query, [], gen 0 (mkPrompt reprV sysPrompt query [])⟩) ∧
    ((∀ i p, pyContains (gen i p) "USE_TOOL:" = true ∧
        ∃ nm v res, parseToolCall evalLiteral (gen i p) = Except.ok (nm, v) ∧
          dispatchTool searchF scraperF nm v = Except.ok res) →
      ∃ steps, webscraper_agent gen evalLiteral searchF scraperF reprV sysPrompt query =
        Except.ok ⟨query, steps, "Max steps reached without conclusion"⟩ ∧
        steps.length = 5) := by
  constructor
  · intro hmark
    unfold webscraper_agent
    have h5 : (5 : Nat) = 4 + 1 := rfl
    rw [h5]
    unfold agentLoop
    dsimp only
    rw [hmark]
    simp only [Bool.false_eq_true, if_false]
  · intro H
    obtain ⟨steps, he, hl⟩ := agentLoop_budget gen evalLiteral searchF scraperF reprV
      sysPrompt query H 5 0 query []
    exact ⟨steps, he, by simpa using hl⟩

/-- C3 (amended).  Of the three tool-step failure modes, only an unknown
tool name is captured as a step result (the `{"error": "Unknown tool"}`
dict) with the loop continuing; a response whose parameters fail to parse
(missing `PARAMETERS:` segment or a raising `eval`) and a tool callable
that raises both propagate out of the loop, aborting the whole
orchestration call. -/
theorem agent_failure_modes {V : Type} (gen : Nat → String → String)
    (evalLiteral : String → Except PyErr V) (searchF scraperF : V → Except PyErr V)
    (reprV : V → String) (sysPrompt query cur : String) (rem step : Nat)
    (hist : List (AgentStep V))
    (hmark : pyContains (gen step (mkPrompt reprV sysPrompt cur hist)) "USE_TOOL:" = true) :
    (∀ nm v, parseToolCall evalLiteral (gen step (mkPrompt reprV sysPrompt cur hist)) =
        Except.ok (nm, v) → nm ≠ "google_search" → nm ≠ "scrape_website" →
      agentLoop gen evalLiteral searchF scraperF reprV sysPrompt query
          (rem + 1) step cur hist =
        agentLoop gen evalLiteral searchF scraperF reprV sysPrompt query rem (step + 1)
          ("Tool " ++ nm ++ " returned: " ++
            reprStepResult reprV (StepResult.errorDict "Unknown tool") ++
            "\nWhat should we do next?")
          (hist ++ [⟨step, nm, v, StepResult.errorDict "Unknown tool"⟩])) ∧
    (∀ e, parseToolCall evalLiteral (gen step (mkPrompt reprV sysPrompt cur hist)) =
        Except.error e →
      agentLoop gen evalLiteral searchF scraperF reprV sysPrompt query
          (rem + 1) step cur hist = Except.error e) ∧
    (∀ nm v e, parseToolCall evalLiteral (gen step (mkPrompt reprV sysPrompt cur hist)) =
        Except.ok (nm, v) →
      ((nm = "google_search" ∧ searchF v = Except.error e) ∨
        (nm = "scrape_website" ∧ scraperF v = Except.error e)) →
      agentLoop gen evalLiteral searchF scraperF reprV sysPrompt query
          (rem + 1) step cur hist = Except.error e) := by
  refine ⟨?_, ?_, ?_⟩
  · intro nm v hparse hn1 hn2
    conv_lhs => unfold agentLoop
    dsimp only
    rw [hmark]
    simp only [if_true]
    rw [hparse]
    dsimp only
    unfold dispatchTool
    rw [if_neg hn1, if_neg hn2]
  · intro e hparse
    unfold agentLoop
    dsimp only
    rw [hmark]
    simp only [if_true]
    rw [hparse]
  · intro nm v e hparse hdisp
    unfold agentLoop
    dsimp only
    rw [hmark]
    simp only [if_true]
    rw [hparse]
    dsimp only
    unfold dispatchTool
    rcases hdisp with ⟨hn, hs⟩ | ⟨hn, hs⟩
    · rw [if_pos hn, hs]
      rfl
    · rw [if_neg ?_, if_pos hn, hs]
      · rfl
      · rw [hn]
        intro hc
        exact absurd hc (by decide)

/-- C2 counterexample.  A model that ALWAYS requests a tool (every
response contains `USE_TOOL:`) need not drive the loop to the 5-step
sentinel: with no `PARAMETERS:` segment the indexing `tool_parts[1]`
raises `IndexError` at step 0 and the call aborts with an exception
instead of returning steps and a sentinel answer. -/
theorem agent_tool_requests_abort_cex :
    webscraper_agent (V := String) (fun _ _ => "USE_TOOL: google_search")
      (fun s => Except.ok s) (fun s => Except.ok s) (fun s => Except.ok s) (fun s => s)
      "sys" "q" = Except.error (PyErr.indexError "list index out of range") := by
  rfl

/-- C3 counterexample.  A malformed parameters literal is NOT captured as
a step result: `eval` raises, the exception propagates, and the whole
orchestration call aborts (no structured result).  Likewise the raising
tool callable is uncaught (third failure mode, second conjunct): with a
well-formed request naming `google_search` whose callable raises, the
call aborts with that exception. -/
theorem agent_malformed_literal_abort_cex :
    webscraper_agent (V := String)
        (fun _ _ => "USE_TOOL: google_search PARAMETERS: [1,")
        (fun _ => Except.error (PyErr.valueError "malformed node or string"))
        (fun s => Except.ok s) (fun s => Except.ok s) (fun s => s) "sys" "what is x0" =
      Except.error (PyErr.valueError "malformed node or string") ∧
    webscraper_agent (V := String)
        (fun _ _ => "USE_TOOL: google_search PARAMETERS: 1")
        (fun s => Except.ok s)
        (fun _ => Except.error (PyErr.typeError "argument of type int is not iterable"))
        (fun s => Except.ok s) (fun s => s) "sys" "what is x0" =
      Except.error (PyErr.typeError "argument of type int is not iterable") := by
  constructor
  · rfl
  · rfl

theorem agent_loop_terminal_and_budget_witness :
    (webscraper_agent (V := String) (fun _ _ => "final answer") (fun s => Except.ok s)
        (fun s => Except.ok s) (fun s => Except.ok s) (fun s => s) "sys" "q" =
      Except.ok ⟨"q", [], "final answer"⟩) ∧
    (∃ steps, webscraper_agent (V := String) (fun _ _ => "USE_TOOL: foo PARAMETERS: x")
        (fun s => Except.ok s) (fun s => Except.ok s) (fun s => Except.ok s) (fun s => s)
        "sys" "q" =
      Except.ok ⟨"q", steps, "Max steps reached without conclusion"⟩ ∧ steps.length = 5) := by
  constructor
  · exact (agent_loop_terminal_and_budget (V := String) (fun _ _ => "final answer")
      (fun s => Except.ok s) (fun s => Except.ok s) (fun s => Except.ok s) (fun s => s)
      "sys" "q").1 rfl
  · exact (agent_loop_terminal_and_budget (V := String)
      (fun _ _ => "USE_TOOL: foo PARAMETERS: x") (fun s => Except.ok s)
      (fun s => Except.ok s) (fun s => Except.ok s) (fun s => s) "sys" "q").2
      (fun _ _ => ⟨rfl, "foo", "x", StepResult.errorDict "Unknown tool", rfl, rfl⟩)

theorem agent_failure_modes_witness :
    (agentLoop (V := String) (fun _ _ => "USE_TOOL: foo PARAMETERS: x") (fun s => Except.ok s)
        (fun s => Except.ok s) (fun s => Except.ok s) (fun s => s) "sys" "q" 1 0 "q" [] =
      Except.ok ⟨"q", [⟨0, "foo", "x", StepResult.errorDict "Unknown tool"⟩],
        "Max steps reached without conclusion"⟩) ∧
    (agentLoop (V := String) (fun _ _ => "USE_TOOL: bar") (fun s => Except.ok s)
        (fun s => Except.ok s) (fun s => Except.ok s) (fun s => s) "sys" "q" 1 0 "q" [] =
      Except.error (PyErr.indexError "list index out of range")) ∧
    (agentLoop (V := String) (fun _ _ => "USE_TOOL: google_search PARAMETERS: y")
        (fun s => Except.ok s) (fun _ => Except.error (PyErr.valueError "boom"))
        (fun s => Except.ok s) (fun s => s) "sys" "q" 1 0 "q" [] =
      Except.error (PyErr.valueError "boom")) := by
  refine ⟨?_, ?_, ?_⟩
  · have h := (agent_failure_modes (V := String) (fun _ _ => "USE_TOOL: foo PARAMETERS: x")
      (fun s => Except.ok s) (fun s => Except.ok s) (fun s => Except.ok s) (fun s => s)
      "sys" "q" "q" 0 0 [] rfl).1 "foo" "x" rfl (by decide) (by decide)
    rw [h]
    rfl
  · exact (agent_failure_modes (V := String) (fun _ _ => "USE_TOOL: bar")
      (fun s => Except.ok s) (fun s => Except.ok s) (fun s => Except.ok s) (fun s => s)
      "sys" "q" "q" 0 0 [] rfl).2.1 (PyErr.indexError "list index out of range") rfl
  · exact (agent_failure_modes (V := String)
      (fun _ _ => "USE_TOOL: google_search PARAMETERS: y") (fun s => Except.ok s)
      (fun _ => Except.error (PyErr.valueError "boom")) (fun s => Except.ok s) (fun s => s)
      "sys" "q" "q" 0 0 [] rfl).2.2 "google_search" "y" (PyErr.valueError "boom") rfl
      (Or.inl ⟨rfl, rfl⟩)

theorem provider_chat_contract_witness :
    (BaseProvider.chat (fun _ _ => "hi there") ChatHistory.init "hello" "t1" "t2").2.messages =
      [⟨"user", "hello", "t1"⟩, ⟨"assistant", "hi there", "t2"⟩] :=
  (provider_chat_contract (fun _ _ => "hi there") ChatHistory.init "hello" "t1" "t2").2.2.1 rfl

theorem router_resolution_witness :
    (Router.get_provider_and_model ⟨[("gemini", ["gemini-pro"])], [("gemini", ⟨"old"⟩)], "d"⟩
        "unknownbackend/modelX" =
      Except.error (PyErr.valueError "Provider unknownbackend not configured")) ∧
    (Router.get_provider_and_model ⟨[("gemini", ["gemini-pro"])], [("gemini", ⟨"old"⟩)], "d"⟩
        "gemini/unlisted" =
      Except.error (PyErr.valueError "Model unlisted not available for provider gemini")) ∧
    (Router.generate_chat_response ⟨[("gemini", ["gemini-pro"])], [("gemini", ⟨"old"⟩)], "d"⟩
        (fun p m => p.model ++ ":" ++ m) "hello" (some "gemini/gemini-pro") =
      Except.ok ("gemini-pro:hello",
        Router.setProvider ⟨[("gemini", ["gemini-pro"])], [("gemini", ⟨"old"⟩)], "d"⟩
          "gemini" ⟨"gemini-pro"⟩)) := by
  refine ⟨?_, ?_, ?_⟩
  · exact (router_resolution ⟨[("gemini", ["gemini-pro"])], [("gemini", ⟨"old"⟩)], "d"⟩
      (fun p m => p.model ++ ":" ++ m) "hello" "unknownbackend/modelX"
      "unknownbackend" "modelX" rfl).1 rfl
  · exact (router_resolution ⟨[("gemini", ["gemini-pro"])], [("gemini", ⟨"old"⟩)], "d"⟩
      (fun p m => p.model ++ ":" ++ m) "hello" "gemini/unlisted" "gemini" "unlisted"
      rfl).2.1 ⟨"old"⟩ ["gemini-pro"] rfl rfl (by decide)
  · exact ((router_resolution ⟨[("gemini", ["gemini-pro"])], [("gemini", ⟨"old"⟩)], "d"⟩
      (fun p m => p.model ++ ":" ++ m) "hello" "gemini/gemini-pro" "gemini" "gemini-pro"
      rfl).2.2 ⟨"old"⟩ ["gemini-pro"] rfl rfl (by decide)).2.1

theorem query_ranked_descending_witness :
    (InMemoryVectorDB.queryIndices (α := Nat) ⟨[[1], [2]], [5, 6], ["a", "b"], 2⟩ [1] 1).Nodup ∧
    (∀ i ∈ InMemoryVectorDB.queryIndices (α := Nat) ⟨[[1], [2]], [5, 6], ["a", "b"], 2⟩ [1] 1,
      i < 2) := by
  have h := query_ranked_descending (α := Nat) ⟨[[1], [2]], [5, 6], ["a", "b"], 2⟩ [1] 1
    (by decide) (by decide)
  exact ⟨h.2.2.1, h.2.1⟩

theorem query_topk_bound_witness :
    InMemoryVectorDB.query (α := Nat) (InMemoryVectorDB.clear ⟨[[1]], [7], ["a"], 1⟩) [1] 3 =
      Except.ok [] := by
  have h := query_topk_bound (α := Nat) ⟨[[1]], [7], ["a"], 1⟩ [1] 3 (by decide)
  exact h.2.2 3 [1]

theorem add_count_and_mismatch_witness :
    InMemoryVectorDB.add (α := Nat) InMemoryVectorDB.init [[1], [2]] (some [4]) =
      Except.error (PyErr.valueError "Number of embeddings must match number of metadatas") := by
  have h := add_count_and_mismatch (α := Nat) InMemoryVectorDB.init [[1], [2]] [4]
  exact h.2.1 (by decide)

theorem store_invariants_witness :
    InMemoryVectorDB.add (α := Nat) InMemoryVectorDB.init [[1], [2]] none =
      Except.ok ⟨[[1], [2]], [0, 0], ["0", "1"], 2⟩ ∧
    (InMemoryVectorDB.mk (α := Nat) [[1], [2]] [0, 0] ["0", "1"] 2).WF ∧
    (InMemoryVectorDB.mk (α := Nat) [[1], [2]] [0, 0] ["0", "1"] 2).uniformDim := by
  have h := (store_invariants (α := Nat) InMemoryVectorDB.init).1 [[1], [2]] none
    ⟨[[1], [2]], [0, 0], ["0", "1"], 2⟩ rfl
  exact ⟨rfl, h.2.1 ⟨rfl, rfl⟩, h.2.2 (by decide)⟩

theorem shared_history_aliasing_witness :
    ProviderClassState.get_chat_history
        ((ProviderClassState.mkProviders 2).chat (fun _ _ => "resp") 0 "hello" "t1" "t2").2 1 =
      [⟨"user", "hello", "t1"⟩, ⟨"assistant", "resp", "t2"⟩] ∧
    ProviderClassState.get_chat_history
        ((ProviderClassState.mkProviders 2).clear_chat_history 1) 0 = [] := by
  have h := shared_history_aliasing 2 (fun _ _ => "resp") 0 1 "hello" "t1" "t2"
    (ProviderClassState.mkProviders 2) (mkProviders_sharedWorld 2).1
  have h2 := shared_history_aliasing 2 (fun _ _ => "resp") 1 0 "hello" "t1" "t2"
    (ProviderClassState.mkProviders 2) (mkProviders_sharedWorld 2).1
  exact ⟨h.2.2.1, h2.2.2.2.1⟩
